import Mathlib

/-!
A shallow embedding of the `go_logger` dispatch core (logger.go) together with
proofs about its severity model, message formatter, binding registry
operations, synchronous dispatch, and the asynchronous flush protocol.

Conventions of the embedding:
* Go `int`/`int64` values are modelled as `Int` (no arithmetic here can
  overflow 64 bits, so no wraparound is modelled).
* `printError`, which prints a message and then calls `os.Exit(0)` (it never
  returns), is modelled by returning `Except.error msg`; `Except.ok` models
  the function reaching its ordinary `return`.
* Effects on adapters (calls to an adapter's `Write`/`Flush`) are modelled as
  an explicit trace of `LogEvent`s, produced in program order.
* The asynchronous machinery (goroutine, channels, `sync.WaitGroup`) is
  modelled as a small-step transition system driven by an explicit scheduler
  choice list (`Choice`), mirroring the nondeterminism of Go's `select`.
-/

namespace GoLogger

/-! ### Severity model (logger.go, `LoggerLevel*` constants) -/

def LoggerLevelEmergency : Int := 0

def LoggerLevelAlert : Int := 1

def LoggerLevelCritical : Int := 2

def LoggerLevelError : Int := 3

def LoggerLevelWarning : Int := 4

def LoggerLevelNotice : Int := 5

def LoggerLevelInfo : Int := 6

def LoggerLevelDebug : Int := 7

/-- The source's `levelStringMapping`; a Go map lookup of a missing key
yields the zero value `""`. -/
def levelStringMapping (level : Int) : String :=
  if level = LoggerLevelEmergency then "Emergency"
  else if level = LoggerLevelAlert then "Alert"
  else if level = LoggerLevelCritical then "Critical"
  else if level = LoggerLevelError then "Error"
  else if level = LoggerLevelWarning then "Warning"
  else if level = LoggerLevelNotice then "Notice"
  else if level = LoggerLevelInfo then "Info"
  else if level = LoggerLevelDebug then "Debug"
  else ""

/-- The fragment of Go's `strings.ToUpper` relevant to comparisons against
ASCII level names: ASCII lowercase letters are shifted, and the two non-ASCII
characters whose Unicode simple uppercase mapping is an ASCII letter
(dotless i and long s) are mapped as Go maps them.  Every other character is
mapped by Go to a non-ASCII character (or itself), which compares unequal to
every ASCII letter exactly as the identity does, so the `switch` below agrees
with the source on all inputs. -/
def toUpperGo (c : Char) : Char :=
  if 'a' ≤ c ∧ c ≤ 'z' then Char.ofNat (c.toNat - 32)
  else if c = 'ı' then 'I'
  else if c = 'ſ' then 'S'
  else c

/-- The `switch` body of `Logger.LoggerLevel`, applied to the uppercased
name. -/
def loggerLevelSwitch (u : List Char) : Int :=
  if u = "EMERGENCY".data then LoggerLevelEmergency
  else if u = "ALERT".data then LoggerLevelAlert
  else if u = "CRITICAL".data then LoggerLevelCritical
  else if u = "ERROR".data then LoggerLevelError
  else if u = "WARNING".data then LoggerLevelWarning
  else if u = "NOTICE".data then LoggerLevelNotice
  else if u = "INFO".data then LoggerLevelInfo
  else if u = "DEBUG".data then LoggerLevelDebug
  else LoggerLevelDebug

/-- The method `Logger.LoggerLevel` (the receiver is unused in the source): uppercase the
argument, then switch on it, defaulting to `LoggerLevelDebug`. -/
def LoggerLevel (levelStr : String) : Int :=
  loggerLevelSwitch (levelStr.data.map toUpperGo)

/-- The eight defined level names (as they appear in the `switch`) paired with
the level each one parses to. -/
def levelNames : List (String × Int) :=
  [("EMERGENCY", LoggerLevelEmergency), ("ALERT", LoggerLevelAlert),
   ("CRITICAL", LoggerLevelCritical), ("ERROR", LoggerLevelError),
   ("WARNING", LoggerLevelWarning), ("NOTICE", LoggerLevelNotice),
   ("INFO", LoggerLevelInfo), ("DEBUG", LoggerLevelDebug)]

/-! ### Log events and the data model -/

/-- The source's `loggerMessage`.  The two `*Format` fields and the
provenance fields hold whatever was captured at `Writer` time. -/
structure loggerMessage where
  Timestamp : Int
  TimestampFormat : String
  Millisecond : Int
  MillisecondFormat : String
  Level : Int
  LevelString : String
  Body : String
  File : String
  Line : Int
  Function : String
deriving DecidableEq, Repr

/-- Observable adapter-facing effects of the dispatch core, in program order:
a call to a binding's `Write`, the diagnostic-stream report emitted when that
`Write` returned an error, and a call to a binding's `Flush`. -/
inductive LogEvent where
  | write (name : String) (msg : loggerMessage)
  | writeFail (name : String) (msg : loggerMessage) (err : String)
  | flushOut (name : String)
deriving DecidableEq, Repr

/-- The source's `outputLogger`: an attach-time name, an admission
threshold, and the embedded adapter, whose `Write` behaviour is modelled by
the error (if any) it returns for a given message. -/
structure outputLogger where
  Name : String
  Level : Int
  write : loggerMessage → Option String

/-- An adapter as obtained from the registry: its `Init` outcome for a given
config and its `Write` behaviour.  `Config` is abstract, as in the source
(`Config` is an interface implemented by each adapter's config struct). -/
structure Adapter (Config : Type) where
  Init : Config → Option String
  write : loggerMessage → Option String

/-- The `Logger` aggregate: delivery-mode flag, ordered binding sequence, and
the contents of the buffered message channel (the channel's capacity and the
`sync` primitives only matter for the asynchronous machine below). -/
structure Logger where
  synchronous : Bool
  outputs : List outputLogger
  msgChan : List loggerMessage

/-! ### Dispatch (`writeToOutputs`) -/

/-- The method `Logger.writeToOutputs`: offer the message to each binding in order; a
binding is written to iff its threshold is numerically ≥ the message level;
a write error is reported to stderr and the loop continues. -/
def writeToOutputs (outputs : List outputLogger) (m : loggerMessage) : List LogEvent :=
  outputs.flatMap fun o =>
    if o.Level ≥ m.Level then
      match o.write m with
      | none => [LogEvent.write o.Name m]
      | some e => [LogEvent.write o.Name m, LogEvent.writeFail o.Name m e]
    else []

/-! ### attach / detach / NewLogger -/

/-- The method `Logger.attach`.  Every `printError` call in the source prints and then
terminates the process via `os.Exit(0)`; these non-returning paths are the
`Except.error` results.  On success the new binding is appended. -/
def attach {Config : Type} (registry : String → Option (Adapter Config))
    (outputs : List outputLogger) (adapterName : String) (level : Int)
    (config : Config) : Except String (List outputLogger) :=
  if outputs.any (fun o => o.Name == adapterName) then
    Except.error ("logger: adapter " ++ adapterName ++ "already attached!")
  else
    match registry adapterName with
    | none => Except.error ("logger: adapter " ++ adapterName ++ "is nil!")
    | some ad =>
      match ad.Init config with
      | some e =>
        Except.error ("logger: adapter " ++ adapterName ++ " init failed, error: " ++ e)
      | none => Except.ok (outputs ++ [⟨adapterName, level, ad.write⟩])

/-- The method `Logger.detach`: rebuild the binding slice, skipping every binding whose
name matches. -/
def detach (outputs : List outputLogger) (adapterName : String) : List outputLogger :=
  match outputs with
  | [] => []
  | o :: rest =>
    if o.Name == adapterName then detach rest adapterName
    else o :: detach rest adapterName

/-- Modelled from the spec: the console adapter implementation (console.go) is
not under src/.  §8 property 1 of the spec says attaching a registered adapter
with a valid config succeeds, and §2 says the registry is populated by each
adapter implementation at startup; accordingly the console adapter's `Init`
returns no error and its `Write` is taken to succeed. -/
def consoleAdapter : Adapter Unit :=
  { Init := fun _ => none, write := fun _ => none }

/-- Modelled from the spec: the process-wide `adapters` registry as it stands
once the console adapter module has registered itself. -/
def defaultAdapters : String → Option (Adapter Unit) :=
  fun n => if n = "console" then some consoleAdapter else none

/-- The constructor `NewLogger`: a synchronous logger with an empty message channel that
attaches the `console` adapter at level `LoggerLevelDebug` before returning.
The source ignores `attach`'s return value; the error branch below is
unreachable because the registry contains `console` and no binding is yet
attached. -/
def NewLogger : Logger :=
  { synchronous := true
    msgChan := []
    outputs :=
      match attach defaultAdapters [] "console" LoggerLevelDebug () with
      | Except.ok o => o
      | Except.error _ => [] }

/-! ### Writer and Flush -/

/-- The post-capture call-site provenance of a `Writer` call: the values Go's
`runtime.Caller(3)` / `runtime.FuncForPC` produced (or the `"null"` / `0`
fallbacks). -/
structure CallSite where
  file : String
  line : Int
  funcName : String

/-- The wall-clock values sampled by `Writer` (the four `time.Now()` reads). -/
structure TimeInfo where
  ts : Int
  tsFormat : String
  ms : Int
  msFormat : String

/-- Go's `path.Split(file)` second component: the suffix of the path after the
last `/`. -/
def baseName (s : String) : String :=
  ⟨s.data.foldl (fun acc c => if c = '/' then [] else acc ++ [c]) []⟩

/-- The `loggerMessage` literal built inside `Writer`. -/
def mkLoggerMessage (t : TimeInfo) (cs : CallSite) (level : Int) (body : String) :
    loggerMessage :=
  { Timestamp := t.ts
    TimestampFormat := t.tsFormat
    Millisecond := t.ms
    MillisecondFormat := t.msFormat
    Level := level
    LevelString := levelStringMapping level
    Body := body
    File := baseName cs.file
    Line := cs.line
    Function := cs.funcName }

/-- The method `Logger.Writer`.  An illegal level hits `printError` (process exit,
modelled as `Except.error`).  Otherwise: in asynchronous mode the message is
enqueued (`wait.Add(1); msgChan <- msg`; the in-flight counter equals the
queue length in this model) and in synchronous mode it is dispatched
immediately; either way the function returns `nil`, i.e. `Except.ok`. -/
def Writer (l : Logger) (level : Int) (msg : String) (t : TimeInfo) (cs : CallSite) :
    Except String (Logger × List LogEvent) :=
  if levelStringMapping level = "" then
    Except.error ("logger: level " ++ toString level ++ " is illegal!")
  else
    let m := mkLoggerMessage t cs level msg
    if l.synchronous = false then
      Except.ok ({ l with msgChan := l.msgChan ++ [m] }, [])
    else
      Except.ok (l, writeToOutputs l.outputs m)

/-- The private `Logger.flush`: its entire body is guarded by
`if !logger.synchronous`; in that case it drains `msgChan` (dispatching every
queued message) and then calls `Flush` on every binding, and otherwise it does
nothing at all. -/
def Logger.flush (l : Logger) : Logger × List LogEvent :=
  if l.synchronous = false then
    ({ l with msgChan := [] },
      l.msgChan.flatMap (fun m => writeToOutputs l.outputs m)
        ++ l.outputs.map (fun o => LogEvent.flushOut o.Name))
  else (l, [])

/-- The public `Logger.Flush`.  In asynchronous mode the calling thread only
sends `"flush"` on `signalChan` and blocks in `wait.Wait()`; the drain and the
binding flushes happen on the background task (modelled by `step`/`run`
below), so the caller-local trace is empty.  In synchronous mode it calls the
private `flush`. -/
def Logger.Flush (l : Logger) : Logger × List LogEvent :=
  if l.synchronous = false then (l, []) else l.flush

/-! ### Message formatter (`loggerMessageFormat`)

Go's `strings.Replace(s, old, new, 1)` replaces the first occurrence of `old`
only (and, when `old` is empty, inserts `new` at the start of `s`). -/

/-- Does `pat` occur at the very start of `s`?  (The matching loop of
`strings.Index`, specialised to position 0.) -/
def hasPre (pat s : List Char) : Bool :=
  match pat, s with
  | [], _ => true
  | _ :: _, [] => false
  | p :: ps, c :: cs => p == c && hasPre ps cs

/-- Scan `s` left to right for the first occurrence of the (nonempty) `pat`
and replace it with `rep`; leave `s` unchanged when there is none. -/
def rfAux (pat rep : List Char) : List Char → List Char
  | [] => []
  | c :: cs =>
    if hasPre pat (c :: cs) then rep ++ (c :: cs).drop pat.length
    else c :: rfAux pat rep cs

/-- Go's `strings.Replace(s, pat, rep, 1)` on rune lists. -/
def replaceFirst (s pat rep : List Char) : List Char :=
  if pat = [] then rep ++ s else rfAux pat rep s

/-- Does `pat` occur anywhere in `s`? -/
def containsTok (pat : List Char) : List Char → Bool
  | [] => hasPre pat []
  | c :: cs => hasPre pat (c :: cs) || containsTok pat cs

/-- The first nine substitutions of `loggerMessageFormat`, in source order
(every token except `%body%`). -/
def preBodySubst (format : List Char) (m : loggerMessage) : List Char :=
  let m1 := replaceFirst format "%timestamp%".data (toString m.Timestamp).data
  let m2 := replaceFirst m1 "%timestamp_format%".data m.TimestampFormat.data
  let m3 := replaceFirst m2 "%millisecond%".data (toString m.Millisecond).data
  let m4 := replaceFirst m3 "%millisecond_format%".data m.MillisecondFormat.data
  let m5 := replaceFirst m4 "%level%".data (toString m.Level).data
  let m6 := replaceFirst m5 "%level_string%".data m.LevelString.data
  let m7 := replaceFirst m6 "%file%".data m.File.data
  let m8 := replaceFirst m7 "%line%".data (toString m.Line).data
  replaceFirst m8 "%function%".data m.Function.data

/-- The source's `loggerMessageFormat`: the ten `strings.Replace(_, tok, val, 1)` calls in
source order, `%body%` last. -/
def loggerMessageFormat (format : String) (m : loggerMessage) : String :=
  ⟨replaceFirst (preBodySubst format.data m) "%body%".data m.Body.data⟩

/-- The ten recognized placeholder tokens. -/
def placeholderTokens : List (List Char) :=
  ["%timestamp%".data, "%timestamp_format%".data, "%millisecond%".data,
   "%millisecond_format%".data, "%level%".data, "%level_string%".data,
   "%file%".data, "%line%".data, "%function%".data, "%body%".data]

/-! ### The asynchronous machine

`SetAsync` starts one background goroutine running `startAsyncWrite`, a loop
whose `select` nondeterministically takes either a queued message (dispatch
it, `wait.Done()`) or the `"flush"` signal (drain the queue, then `Flush`
every binding).  The scenario of spec §8 property 5 — one caller performing
`N` calls to `log` followed by one `Flush()` — is modelled as a transition
system over `Sys`; the scheduler's nondeterminism (which goroutine runs, and
which ready `select` case fires) is an explicit `Choice` list, a disabled
choice being a stutter step. -/

/-- Where the calling thread is in the «N logs, then Flush» scenario. -/
inductive CallerPh where
  | logging
  | waiting
  | done
deriving DecidableEq, Repr

/-- Where the background task is: in its `select` loop, or inside the drain
loop of the private `flush`. -/
inductive BgPh where
  | idle
  | flushing
deriving DecidableEq, Repr

/-- Joint state: the caller's still-unlogged messages and phase, the
background task's phase, `msgChan` and `signalChan` contents, the `wait`
counter, the messages dispatched so far (in dispatch order), and how many
complete binding-flush passes have run. -/
structure Sys where
  toLog : List loggerMessage
  caller : CallerPh
  bg : BgPh
  queue : List loggerMessage
  signal : Bool
  counter : Nat
  dispatched : List loggerMessage
  flushPasses : Nat
deriving Repr

/-- A scheduler choice: run the caller, or run the background task (picking
the message case or the signal case of its `select`, or one iteration of its
flush drain). -/
inductive Choice where
  | callerStep
  | bgTakeMsg
  | bgTakeSignal
  | bgFlushStep
deriving DecidableEq, Repr

/-- One transition.  The caller logs its next message when the bounded queue
has room (`wait.Add(1)` and the channel send), then sends the flush signal,
then blocks in `wait.Wait()` until the counter is zero, then returns from
`Flush`.  The background task dispatches one queued message and decrements
the counter (`startAsyncWrite`'s first case), or consumes the signal and
enters the private `flush` (second case); while flushing it drains one
message per step and, once the queue is empty, flushes every binding and
returns to the `select` loop. -/
def step (cap : Nat) (s : Sys) : Choice → Sys
  | Choice.callerStep =>
    match s.caller, s.toLog with
    | CallerPh.logging, m :: rest =>
      if s.queue.length < cap then
        { s with toLog := rest, queue := s.queue ++ [m], counter := s.counter + 1 }
      else s
    | CallerPh.logging, [] =>
      if s.signal then s else { s with caller := CallerPh.waiting, signal := true }
    | CallerPh.waiting, _ =>
      if s.counter = 0 then { s with caller := CallerPh.done } else s
    | CallerPh.done, _ => s
  | Choice.bgTakeMsg =>
    match s.bg, s.queue with
    | BgPh.idle, m :: q =>
      { s with queue := q, counter := s.counter - 1, dispatched := s.dispatched ++ [m] }
    | _, _ => s
  | Choice.bgTakeSignal =>
    match s.bg, s.signal with
    | BgPh.idle, true => { s with signal := false, bg := BgPh.flushing }
    | _, _ => s
  | Choice.bgFlushStep =>
    match s.bg, s.queue with
    | BgPh.flushing, m :: q =>
      { s with queue := q, counter := s.counter - 1, dispatched := s.dispatched ++ [m] }
    | BgPh.flushing, [] =>
      { s with bg := BgPh.idle, flushPasses := s.flushPasses + 1 }
    | BgPh.idle, _ => s

/-- Run a schedule from a state. -/
def run (cap : Nat) (s : Sys) : List Choice → Sys
  | [] => s
  | c :: cs => run cap (step cap s c) cs

/-- Initial state of the scenario: the caller is about to log `msgs`, both
channels are empty, the counter is zero, nothing dispatched. -/
def initSys (msgs : List loggerMessage) : Sys :=
  { toLog := msgs, caller := CallerPh.logging, bg := BgPh.idle, queue := [],
    signal := false, counter := 0, dispatched := [], flushPasses := 0 }

/-- Did a `printError`-free (ordinary) return happen? -/
def isOkE {ε α : Type} (e : Except ε α) : Bool :=
  match e with
  | Except.ok _ => true
  | Except.error _ => false

/-! ### Concrete fixtures used in witnesses and counterexamples -/

/-- A console-like binding whose writes succeed, at threshold Debug. -/
def conB : outputLogger := ⟨"console", LoggerLevelDebug, fun _ => none⟩

/-- A file-like binding whose writes succeed, at threshold Warning. -/
def fileB : outputLogger := ⟨"file", LoggerLevelWarning, fun _ => none⟩

/-- A binding whose adapter fails every write with `"boom"`. -/
def badB : outputLogger := ⟨"bad", LoggerLevelDebug, fun _ => some "boom"⟩

/-- A synchronous logger holding exactly one binding. -/
def syncLogger1 : Logger := ⟨true, [conB], []⟩

/-- A plain time sample. -/
def t0 : TimeInfo := ⟨1700000000, "2023-11-14 22:13:20", 1700000000000, "2023-11-14 22:13:20.000"⟩

/-- A plain call site. -/
def cs0 : CallSite := ⟨"/tmp/main.go", 42, "main.main"⟩

/-! ### Dispatch lemmas -/

theorem writeToOutputs_append (l₁ l₂ : List outputLogger) (m : loggerMessage) :
    writeToOutputs (l₁ ++ l₂) m = writeToOutputs l₁ m ++ writeToOutputs l₂ m := by
  simp [writeToOutputs]

theorem write_mem_writeToOutputs {o : outputLogger} {outputs : List outputLogger}
    {m : loggerMessage} (ho : o ∈ outputs) (hadm : o.Level ≥ m.Level) :
    LogEvent.write o.Name m ∈ writeToOutputs outputs m := by
  unfold writeToOutputs
  refine List.mem_flatMap.mpr ⟨o, ho, ?_⟩
  rw [if_pos hadm]
  cases hw : o.write m <;> simp

/-- Claim C4: during dispatch, `writeToOutputs` offers the event to each binding
in sequence (it is the in-order concatenation of each binding's own
dispatch), and a given binding's `Write` is invoked with the event if and
only if its threshold is numerically ≥ the event's level; in particular a
`Warning`(4) binding admits levels 0–4 and rejects level 5. -/
theorem dispatch_threshold_iff (outputs : List outputLogger) (m : loggerMessage) :
    writeToOutputs outputs m = outputs.flatMap (fun o => writeToOutputs [o] m)
    ∧ ∀ o : outputLogger,
        (LogEvent.write o.Name m ∈ writeToOutputs [o] m ↔ o.Level ≥ m.Level) := by
  constructor
  · simp [writeToOutputs]
  · intro o
    by_cases h : o.Level ≥ m.Level
    · rw [iff_true_intro h, iff_true]
      exact write_mem_writeToOutputs (List.mem_singleton.mpr rfl) h
    · simp only [writeToOutputs, List.flatMap_cons, List.flatMap_nil, List.append_nil,
        if_neg h]
      simp [h]

/-! ### detach (C7) -/

/-- Claim C7: `detach` is exactly the order-preserving filter dropping the
bindings whose name equals the argument: the result is the sublist of the
original sequence (same relative order) consisting of the non-matching
bindings, and when no binding carries the name the sequence is unchanged. -/
theorem detach_filter_spec (outputs : List outputLogger) (nm : String) :
    detach outputs nm = outputs.filter (fun o => !(o.Name == nm))
    ∧ List.Sublist (detach outputs nm) outputs
    ∧ ((∀ o ∈ outputs, o.Name ≠ nm) → detach outputs nm = outputs) := by
  have hfilter : detach outputs nm = outputs.filter (fun o => !(o.Name == nm)) := by
    induction outputs with
    | nil => simp [detach]
    | cons o rest ih =>
      by_cases h : o.Name = nm <;> simp [detach, h, ih]
  refine ⟨hfilter, ?_, ?_⟩
  · rw [hfilter]; exact List.filter_sublist _
  · intro h
    rw [hfilter]
    apply List.filter_eq_self.mpr
    intro o ho
    simpa using h o ho

/-- Witness for C7 at concrete inputs: detaching `"console"` from
`[console, file]` keeps only `file`, and detaching an absent name is a
no-op. -/
theorem detach_filter_witness :
    detach [conB, fileB] "console" = [fileB]
    ∧ detach [conB, fileB] "zzz" = [conB, fileB] := by
  constructor
  · rw [(detach_filter_spec [conB, fileB] "console").1]; rfl
  · exact (detach_filter_spec [conB, fileB] "zzz").2.2 (by
      intro o ho
      rcases List.mem_cons.mp ho with h | h
      · subst h; decide
      · rw [List.mem_singleton.mp h]; decide)

/-! ### NewLogger (C9) -/

/-- Claim C9: a logger freshly constructed by `NewLogger` is synchronous and
already holds exactly one binding, named `"console"` with threshold
`LoggerLevelDebug` = 7, before any caller-side attach. -/
theorem newLogger_default :
    NewLogger.synchronous = true ∧ NewLogger.msgChan = []
    ∧ NewLogger.outputs.map (fun o => (o.Name, o.Level)) = [("console", LoggerLevelDebug)]
    ∧ LoggerLevelDebug = 7 :=
  ⟨rfl, rfl, rfl, rfl⟩

/-! ### Writer never surfaces an error (C10) -/

/-- Claim C10: for every defined severity level (0–7) and every message,
`Writer` reaches its ordinary `return nil` — it never surfaces an error to
the caller, in either delivery mode and regardless of what the adapters'
writes return. -/
theorem writer_returns_nil (l : Logger) (level : Int) (msg : String)
    (t : TimeInfo) (cs : CallSite) (h0 : 0 ≤ level) (h7 : level ≤ LoggerLevelDebug) :
    isOkE (Writer l level msg t cs) = true := by
  have h7' : level ≤ 7 := h7
  have hne : levelStringMapping level ≠ "" := by
    interval_cases level <;> decide
  unfold Writer
  rw [if_neg hne]
  cases h : l.synchronous <;> simp [h, isOkE]

/-- Witness for C10: an `Error`-level write on the freshly constructed logger
returns nil. -/
theorem writer_returns_nil_witness :
    isOkE (Writer NewLogger LoggerLevelError "disk on fire" t0 cs0) = true :=
  writer_returns_nil NewLogger LoggerLevelError "disk on fire" t0 cs0
    (by decide) (by decide)

/-! ### Synchronous Flush is a no-op (C2, corrected) -/

/-- Counterexample to C2 as stated: a synchronous logger with one attached
binding; `Flush()` produces no events at all — in particular the binding's
`Flush` is not invoked, because the private `flush`'s whole body is guarded
by `if !logger.synchronous`. -/
theorem sync_flush_cex :
    (Logger.Flush syncLogger1).2 = []
    ∧ syncLogger1.synchronous = true
    ∧ syncLogger1.outputs.length = 1 :=
  ⟨rfl, rfl, rfl⟩

/-- Claim C2, amended: when the logger is synchronous, `Flush()` is a no-op:
the private `flush` it delegates to acts only in asynchronous mode, so no
binding's `Flush` operation is invoked and the logger is unchanged. -/
theorem sync_flush_noop (l : Logger) (h : l.synchronous = true) :
    Logger.Flush l = (l, []) ∧ Logger.flush l = (l, []) := by
  constructor <;> simp [Logger.Flush, Logger.flush, h]

/-- Witness for the amended C2 at a concrete synchronous logger. -/
theorem sync_flush_noop_witness :
    Logger.Flush syncLogger1 = (syncLogger1, [])
    ∧ Logger.flush syncLogger1 = (syncLogger1, []) :=
  sync_flush_noop syncLogger1 rfl

/-! ### Duplicate attach terminates the process (C1, corrected) -/

/-- Counterexample to C1 as stated: attaching `"console"` to the freshly
constructed logger (which already holds a `"console"` binding) does not
append a second binding — it takes the `printError` path, which prints and
then exits the process (`os.Exit(0)`), so `attach` never reaches an ordinary
return. -/
theorem attach_duplicate_cex :
    attach defaultAdapters NewLogger.outputs "console" LoggerLevelDebug ()
      = Except.error "logger: adapter consolealready attached!"
    ∧ isOkE (attach defaultAdapters NewLogger.outputs "console" LoggerLevelDebug ())
      = false :=
  ⟨rfl, rfl⟩

/-- Claim C1, amended: if `attach` is called with a name some current binding
already carries, the duplicate check fires `printError`, which terminates the
process: the new adapter is never constructed and no second binding is
appended (the binding sequence is never extended). -/
theorem attach_duplicate_terminates {Config : Type}
    (registry : String → Option (Adapter Config)) (outputs : List outputLogger)
    (adapterName : String) (level : Int) (config : Config)
    (h : ∃ o ∈ outputs, o.Name = adapterName) :
    attach registry outputs adapterName level config
      = Except.error ("logger: adapter " ++ adapterName ++ "already attached!") := by
  obtain ⟨o, ho, hname⟩ := h
  have hany : outputs.any (fun o => o.Name == adapterName) = true :=
    List.any_eq_true.mpr ⟨o, ho, by simp [hname]⟩
  simp [attach, hany]

/-- Witness for the amended C1 at concrete inputs. -/
theorem attach_duplicate_terminates_witness :
    attach defaultAdapters [conB, fileB] "file" LoggerLevelError ()
      = Except.error "logger: adapter filealready attached!" := by
  have := attach_duplicate_terminates defaultAdapters [conB, fileB] "file"
    LoggerLevelError () ⟨fileB, by simp, rfl⟩
  simpa using this

/-! ### A failing adapter write is isolated (C8) -/

/-- Claim C8: when a binding's `Write` returns an error during synchronous
dispatch, the error is reported to the diagnostic stream (the `writeFail`
event directly after that binding's `write`), dispatch still continues to
every remaining admitting binding (the trace ends with `post`'s full
dispatch), and the original `Writer` call returns nil (`Except.ok`). -/
theorem write_failure_isolated (l : Logger) (pre post : List outputLogger)
    (o : outputLogger) (level : Int) (body : String) (t : TimeInfo) (cs : CallSite)
    (e : String) (hsync : l.synchronous = true) (houts : l.outputs = pre ++ o :: post)
    (h0 : 0 ≤ level) (h7 : level ≤ LoggerLevelDebug)
    (herr : o.write (mkLoggerMessage t cs level body) = some e)
    (hadm : o.Level ≥ level) :
    Writer l level body t cs = Except.ok (l,
      writeToOutputs pre (mkLoggerMessage t cs level body)
      ++ LogEvent.write o.Name (mkLoggerMessage t cs level body)
        :: LogEvent.writeFail o.Name (mkLoggerMessage t cs level body) e
        :: writeToOutputs post (mkLoggerMessage t cs level body)) := by
  have h7' : level ≤ 7 := h7
  have hne : levelStringMapping level ≠ "" := by
    interval_cases level <;> decide
  have hadm' : o.Level ≥ (mkLoggerMessage t cs level body).Level := hadm
  unfold Writer
  rw [if_neg hne]
  simp only [hsync, Bool.true_eq_false, if_false, if_neg, Except.ok.injEq]
  rw [houts, writeToOutputs_append]
  simp [writeToOutputs, hadm', herr]

/-- A logger whose middle binding fails every write. -/
def failMidLogger : Logger := ⟨true, [conB, badB, fileB], []⟩

/-- Witness for C8: with bindings `[console, bad, file]` where `bad` fails,
an `Error`-level write produces console's write, bad's write plus the
diagnostic report, then file's write — and returns nil. -/
theorem write_failure_isolated_witness :
    Writer failMidLogger LoggerLevelError "x" t0 cs0 = Except.ok (failMidLogger,
      writeToOutputs [conB] (mkLoggerMessage t0 cs0 LoggerLevelError "x")
      ++ LogEvent.write "bad" (mkLoggerMessage t0 cs0 LoggerLevelError "x")
        :: LogEvent.writeFail "bad" (mkLoggerMessage t0 cs0 LoggerLevelError "x") "boom"
        :: writeToOutputs [fileB] (mkLoggerMessage t0 cs0 LoggerLevelError "x")) :=
  write_failure_isolated failMidLogger [conB] [fileB] badB LoggerLevelError "x" t0 cs0
    "boom" rfl rfl (by decide) (by decide) rfl (by decide)

/-! ### Level-name parsing (C6) -/

/-- Claim C6: `LoggerLevel` is case-insensitive for the eight defined level
names — every string whose (Go-)uppercasing equals a defined name parses to
that name's level — and every other string (including the empty string, whose
uppercasing matches no name) parses to `LoggerLevelDebug`, the least urgent
level, rather than failing. -/
theorem loggerLevel_parse_spec :
    (∀ s nm : String, ∀ lv : Int, (nm, lv) ∈ levelNames →
        s.data.map toUpperGo = nm.data → LoggerLevel s = lv)
    ∧ (∀ s : String, (∀ nm : String, ∀ lv : Int, (nm, lv) ∈ levelNames →
        s.data.map toUpperGo ≠ nm.data) → LoggerLevel s = LoggerLevelDebug) := by
  constructor
  · intro s nm lv hmem hu
    unfold LoggerLevel
    rw [hu]
    fin_cases hmem <;> decide
  · intro s h
    have h1 := h "EMERGENCY" LoggerLevelEmergency (by simp [levelNames])
    have h2 := h "ALERT" LoggerLevelAlert (by simp [levelNames])
    have h3 := h "CRITICAL" LoggerLevelCritical (by simp [levelNames])
    have h4 := h "ERROR" LoggerLevelError (by simp [levelNames])
    have h5 := h "WARNING" LoggerLevelWarning (by simp [levelNames])
    have h6 := h "NOTICE" LoggerLevelNotice (by simp [levelNames])
    have h7 := h "INFO" LoggerLevelInfo (by simp [levelNames])
    have h8 := h "DEBUG" LoggerLevelDebug (by simp [levelNames])
    simp [LoggerLevel, loggerLevelSwitch, h1, h2, h3, h4, h5, h6, h7, h8]

/-- Witness for C6: a mixed-case variant of `"WARNING"` parses to `Warning`,
and `"bogus"` falls back to `Debug`. -/
theorem loggerLevel_parse_witness :
    LoggerLevel "wArNinG" = LoggerLevelWarning
    ∧ LoggerLevel "bogus" = LoggerLevelDebug := by
  constructor
  · exact loggerLevel_parse_spec.1 "wArNinG" "WARNING" LoggerLevelWarning
      (by decide) (by decide)
  · refine loggerLevel_parse_spec.2 "bogus" ?_
    intro nm lv hmem
    fin_cases hmem <;> decide

/-! ### Formatter lemmas (C5) -/

theorem hasPre_ex {pat s : List Char} (h : hasPre pat s = true) :
    ∃ post, s = pat ++ post := by
  induction pat generalizing s with
  | nil => exact ⟨s, rfl⟩
  | cons p ps ih =>
    cases s with
    | nil => simp [hasPre] at h
    | cons c cs =>
      simp only [hasPre, Bool.and_eq_true, beq_iff_eq] at h
      obtain ⟨rfl, h2⟩ := h
      obtain ⟨post, rfl⟩ := ih h2
      exact ⟨post, rfl⟩

theorem hasPre_append (pat post : List Char) : hasPre pat (pat ++ post) = true := by
  induction pat with
  | nil => rfl
  | cons p ps ih => simp [hasPre, ih]

theorem rfAux_no_occ {pat : List Char} (rep : List Char) :
    ∀ {s : List Char}, containsTok pat s = false → rfAux pat rep s = s := by
  intro s
  induction s with
  | nil => intro _; rfl
  | cons c cs ih =>
    intro h
    simp only [containsTok, Bool.or_eq_false_iff] at h
    simp only [rfAux]
    rw [if_neg (by simp [h.1]), ih h.2]

theorem replaceFirst_no_occ {s pat rep : List Char} (hp : pat ≠ [])
    (h : containsTok pat s = false) : replaceFirst s pat rep = s := by
  unfold replaceFirst
  rw [if_neg hp]
  exact rfAux_no_occ rep h

theorem rfAux_self {pat : List Char} (rep post : List Char) (hp : pat ≠ []) :
    rfAux pat rep (pat ++ post) = rep ++ post := by
  cases pat with
  | nil => exact absurd rfl hp
  | cons p ps =>
    rw [List.cons_append]
    simp only [rfAux]
    rw [if_pos (by rw [← List.cons_append]; exact hasPre_append (p :: ps) post)]
    congr 1
    rw [← List.cons_append, List.drop_left]

theorem rfAux_first_occ {pat : List Char} (rep : List Char) (pre post : List Char)
    (hp : pat ≠ [])
    (hfirst : ∀ pre₂ post₂ : List Char,
      pre ++ pat ++ post = pre₂ ++ pat ++ post₂ → pre.length ≤ pre₂.length) :
    rfAux pat rep (pre ++ pat ++ post) = pre ++ rep ++ post := by
  induction pre with
  | nil =>
    simp only [List.nil_append]
    exact rfAux_self rep post hp
  | cons c pre' ih =>
    show rfAux pat rep (c :: (pre' ++ pat ++ post)) = c :: (pre' ++ rep ++ post)
    cases hh : hasPre pat (c :: (pre' ++ pat ++ post)) with
    | true =>
      exfalso
      obtain ⟨post₂, heq⟩ := hasPre_ex hh
      have hle := hfirst [] post₂ (by simpa using heq)
      simp at hle
    | false =>
      simp only [rfAux]
      rw [if_neg (by rw [hh]; simp)]
      congr 1
      apply ih
      intro pre₂ post₂ heq
      have hle := hfirst (c :: pre₂) post₂ (by simpa using congrArg (fun l => c :: l) heq)
      simpa using hle

theorem replaceFirst_first_occ {pat : List Char} (rep : List Char) (pre post : List Char)
    (hp : pat ≠ [])
    (hfirst : ∀ pre₂ post₂ : List Char,
      pre ++ pat ++ post = pre₂ ++ pat ++ post₂ → pre.length ≤ pre₂.length) :
    replaceFirst (pre ++ pat ++ post) pat rep = pre ++ rep ++ post := by
  unfold replaceFirst
  rw [if_neg hp]
  exact rfAux_first_occ rep pre post hp hfirst

/-- A message whose `File` field holds the literal text `%body%`; used to
exhibit cross-field re-substitution by `loggerMessageFormat`. -/
def fmtCexMsg : loggerMessage := ⟨0, "", 0, "", 0, "", "X", "%body%", 0, ""⟩

/-- Counterexample to C5 as stated: rendering the template `"%file%"` for a
message whose `File` field is the literal text `"%body%"` and whose body is
`"X"` yields `"X"`, not `"%file%"`'s field value `"%body%"` — the
placeholder-shaped substring inside the substituted `File` value was
re-substituted by the later `%body%` pass, so substituted field values are
not always inserted literally. -/
theorem format_recursive_subst_cex :
    loggerMessageFormat "%file%" fmtCexMsg = "X"
    ∧ fmtCexMsg.File = "%body%"
    ∧ fmtCexMsg.Body = "X"
    ∧ ("X" : String) ≠ "%body%" :=
  ⟨rfl, rfl, rfl, by decide⟩

/-- Claim C5, amended: `loggerMessageFormat` performs one first-occurrence
replacement per recognized token, in a fixed order with `%body%` last.
Consequently: (1) a template containing none of the ten tokens passes
through verbatim; and (2) the final `%body%` pass replaces exactly the first
`%body%` occurrence left by the nine earlier passes, splicing the event body
in verbatim — never re-scanned for placeholders — and leaving everything
around it (including any further `%body%` occurrences) untouched.  A
placeholder-shaped substring inside a value substituted for one of the nine
earlier tokens can, however, be rewritten by a later token's pass (see the
counterexample), so only the body itself is guaranteed literal. -/
theorem loggerMessageFormat_spec (format : String) (m : loggerMessage) :
    ((∀ t ∈ placeholderTokens, containsTok t format.data = false) →
        loggerMessageFormat format m = format)
    ∧ (∀ pre post : List Char,
        preBodySubst format.data m = pre ++ "%body%".data ++ post →
        (∀ pre₂ post₂ : List Char,
            pre ++ "%body%".data ++ post = pre₂ ++ "%body%".data ++ post₂ →
            pre.length ≤ pre₂.length) →
        (loggerMessageFormat format m).data = pre ++ m.Body.data ++ post) := by
  constructor
  · intro h
    have h1 := h "%timestamp%".data (by simp [placeholderTokens])
    have h2 := h "%timestamp_format%".data (by simp [placeholderTokens])
    have h3 := h "%millisecond%".data (by simp [placeholderTokens])
    have h4 := h "%millisecond_format%".data (by simp [placeholderTokens])
    have h5 := h "%level%".data (by simp [placeholderTokens])
    have h6 := h "%level_string%".data (by simp [placeholderTokens])
    have h7 := h "%file%".data (by simp [placeholderTokens])
    have h8 := h "%line%".data (by simp [placeholderTokens])
    have h9 := h "%function%".data (by simp [placeholderTokens])
    have h10 := h "%body%".data (by simp [placeholderTokens])
    show (⟨replaceFirst (preBodySubst format.data m) "%body%".data m.Body.data⟩ : String)
      = format
    unfold preBodySubst
    dsimp only
    rw [replaceFirst_no_occ (by decide) h1, replaceFirst_no_occ (by decide) h2,
      replaceFirst_no_occ (by decide) h3, replaceFirst_no_occ (by decide) h4,
      replaceFirst_no_occ (by decide) h5, replaceFirst_no_occ (by decide) h6,
      replaceFirst_no_occ (by decide) h7, replaceFirst_no_occ (by decide) h8,
      replaceFirst_no_occ (by decide) h9, replaceFirst_no_occ (by decide) h10]
  · intro pre post hdec hfirst
    show (replaceFirst (preBodySubst format.data m) "%body%".data m.Body.data)
      = pre ++ m.Body.data ++ post
    rw [hdec]
    exact replaceFirst_first_occ m.Body.data pre post (by decide) hfirst

/-- A plain debug message used by the formatter witness. -/
def fmtWMsg : loggerMessage := ⟨0, "", 0, "", 7, "Debug", "hi", "", 0, ""⟩

/-- Witness for the amended C5: a token-free template passes through
verbatim, and the template `"%body%"` renders to the body `"hi"` spliced in
verbatim. -/
theorem loggerMessageFormat_spec_witness :
    loggerMessageFormat "logging online" fmtWMsg = "logging online"
    ∧ (loggerMessageFormat "%body%" fmtWMsg).data = [] ++ "hi".data ++ [] := by
  constructor
  · exact (loggerMessageFormat_spec "logging online" fmtWMsg).1 (by decide)
  · exact (loggerMessageFormat_spec "%body%" fmtWMsg).2 [] [] (by decide)
      (fun pre₂ post₂ _ => Nat.zero_le _)

/-! ### Async flush protocol (C3) -/

/-- The inductive invariant of the «N logs, then Flush» scenario: the
messages split into dispatched ++ queued ++ still-to-log; the `wait` counter
equals the queue length (`Add(1)` happens with the enqueue, `Done()` with the
dequeue); once the caller has returned from `Flush` the counter is zero; and
once the caller has stopped logging nothing remains to log. -/
def SysInv (msgs : List loggerMessage) (s : Sys) : Prop :=
  s.dispatched ++ s.queue ++ s.toLog = msgs
  ∧ s.counter = s.queue.length
  ∧ (s.caller = CallerPh.done → s.counter = 0)
  ∧ (s.caller ≠ CallerPh.logging → s.toLog = [])

theorem step_inv {msgs : List loggerMessage} {cap : Nat} {s : Sys} (c : Choice)
    (h : SysInv msgs s) : SysInv msgs (step cap s c) := by
  obtain ⟨tl, cal, bg, qu, sg, cnt, dp, fp⟩ := s
  obtain ⟨h1, h2, h3, h4⟩ := h
  dsimp only at h1 h2 h3 h4
  cases c with
  | callerStep =>
    cases cal with
    | logging =>
      cases tl with
      | nil =>
        simp only [step]
        by_cases hs : sg = true
        · rw [if_pos hs]; exact ⟨h1, h2, h3, h4⟩
        · rw [if_neg hs]
          exact ⟨h1, h2, by simp, by simp⟩
      | cons m rest =>
        simp only [step]
        by_cases hq : qu.length < cap
        · rw [if_pos hq]
          refine ⟨?_, by simp [h2], by simp, by simp⟩
          rw [← h1]; simp
        · rw [if_neg hq]; exact ⟨h1, h2, h3, h4⟩
    | waiting =>
      simp only [step]
      by_cases hc : cnt = 0
      · rw [if_pos hc]
        exact ⟨h1, h2, fun _ => hc, fun _ => h4 (by simp)⟩
      · rw [if_neg hc]; exact ⟨h1, h2, h3, h4⟩
    | done => simp only [step]; exact ⟨h1, h2, h3, h4⟩
  | bgTakeMsg =>
    cases bg with
    | idle =>
      cases qu with
      | nil => simp only [step]; exact ⟨h1, h2, h3, h4⟩
      | cons m q =>
        simp only [step]
        refine ⟨?_, ?_, ?_, h4⟩
        · rw [← h1]; simp
        · dsimp only; simp at h2; omega
        · intro hd
          have hc := h3 hd
          dsimp only
          simp at h2
          omega
    | flushing => simp only [step]; exact ⟨h1, h2, h3, h4⟩
  | bgTakeSignal =>
    cases bg <;> cases sg <;> simp only [step] <;> exact ⟨h1, h2, h3, h4⟩
  | bgFlushStep =>
    cases bg with
    | idle => simp only [step]; exact ⟨h1, h2, h3, h4⟩
    | flushing =>
      cases qu with
      | nil => simp only [step]; exact ⟨h1, h2, h3, h4⟩
      | cons m q =>
        simp only [step]
        refine ⟨?_, ?_, ?_, h4⟩
        · rw [← h1]; simp
        · dsimp only; simp at h2; omega
        · intro hd
          have hc := h3 hd
          dsimp only
          simp at h2
          omega

theorem run_inv {msgs : List loggerMessage} {cap : Nat} (sched : List Choice)
    {s : Sys} (h : SysInv msgs s) : SysInv msgs (run cap s sched) := by
  induction sched generalizing s with
  | nil => exact h
  | cons c cs ih => exact ih (step_inv c h)

theorem init_inv (msgs : List loggerMessage) : SysInv msgs (initSys msgs) :=
  ⟨by simp [initSys], rfl, by simp [initSys], by simp [initSys]⟩

/-- Claim C3, amended: in asynchronous mode, for every N messages, every
schedule and every binding set: if `Flush()` has returned (the caller reached
`done`), then the in-flight counter is zero, all N enqueued events have been
dispatched (in FIFO order), and hence every admitting binding has received a
`Write` for each of them.  The original claim's further conjunct — that every
binding's `Flush` has also been invoked by then — is dropped: it fails on the
code (see the counterexample), because `wait.Wait()` can be released by the
ordinary dispatch path while the `"flush"` signal is still pending. -/
theorem async_flush_drains_before_return (cap : Nat) (msgs : List loggerMessage)
    (sched : List Choice) (outputs : List outputLogger) (s : Sys)
    (hs : s = run cap (initSys msgs) sched) (hdone : s.caller = CallerPh.done) :
    s.counter = 0 ∧ s.dispatched = msgs
    ∧ ∀ m ∈ msgs, ∀ o ∈ outputs, o.Level ≥ m.Level →
        LogEvent.write o.Name m ∈ s.dispatched.flatMap (fun mm => writeToOutputs outputs mm) := by
  have hinv : SysInv msgs s := hs ▸ run_inv sched (init_inv msgs)
  obtain ⟨h1, h2, h3, h4⟩ := hinv
  have hc0 : s.counter = 0 := h3 hdone
  have hq : s.queue = [] := by
    have hlen : s.queue.length = 0 := by rw [← h2, hc0]
    exact List.length_eq_zero.mp hlen
  have htl : s.toLog = [] := h4 (by rw [hdone]; simp)
  have hdisp : s.dispatched = msgs := by
    rw [hq, htl] at h1
    simpa using h1
  refine ⟨hc0, hdisp, ?_⟩
  intro m hm o ho hadm
  refine List.mem_flatMap.mpr ⟨m, ?_, write_mem_writeToOutputs ho hadm⟩
  rw [hdisp]
  exact hm

/-- The one message logged in the concrete async scenarios. -/
def asyncWMsg : loggerMessage := ⟨0, "", 0, "", 6, "Info", "async", "", 0, ""⟩

/-- A schedule in which the background task consumes the flush signal and
performs the full flush pass before the caller's wait is released. -/
def drainSched : List Choice :=
  [Choice.callerStep, Choice.callerStep, Choice.bgTakeSignal,
   Choice.bgFlushStep, Choice.bgFlushStep, Choice.callerStep]

/-- Witness for the amended C3: on a concrete one-message run that reaches
`done`, the counter is zero, the message was dispatched, and the Debug-level
console binding received its write. -/
theorem async_flush_drains_before_return_witness :
    (run 100 (initSys [asyncWMsg]) drainSched).counter = 0
    ∧ (run 100 (initSys [asyncWMsg]) drainSched).dispatched = [asyncWMsg]
    ∧ LogEvent.write "console" asyncWMsg ∈
        (run 100 (initSys [asyncWMsg]) drainSched).dispatched.flatMap
          (fun mm => writeToOutputs [conB] mm) := by
  have h := async_flush_drains_before_return 100 [asyncWMsg] drainSched [conB]
    (run 100 (initSys [asyncWMsg]) drainSched) rfl (by decide)
  exact ⟨h.1, h.2.1,
    h.2.2 asyncWMsg (List.mem_singleton.mpr rfl) conB (List.mem_singleton.mpr rfl)
      (by decide)⟩

/-- The racy schedule: the caller logs and sends the flush signal, but the
background task's `select` picks the message case; the counter reaches zero,
releasing `wait.Wait()`, and `Flush()` returns. -/
def raceSched : List Choice :=
  [Choice.callerStep, Choice.callerStep, Choice.bgTakeMsg, Choice.callerStep]

/-- Counterexample to C3 as stated: a schedule on which `Flush()` has
returned (caller `done`) while the `"flush"` control signal is still pending
and no flush pass has run — no attached binding has had its `Flush` invoked,
contradicting the claim that `Flush` does not return before every binding's
flush has been invoked. -/
theorem async_flush_signal_race_cex :
    (run 100 (initSys [asyncWMsg]) raceSched).caller = CallerPh.done
    ∧ (run 100 (initSys [asyncWMsg]) raceSched).flushPasses = 0
    ∧ (run 100 (initSys [asyncWMsg]) raceSched).signal = true :=
  ⟨rfl, rfl, rfl⟩

end GoLogger
